/-
Verification of the game-state ledger (`Board`) of the rschess fork, as
implemented in `src/board.rs`.

The `Board` type in the source is generic business logic layered over an
external position evaluator (the `Position`, `Move` and `Fen` value types and
their methods live outside the verified core).  We therefore embed the ledger
shallowly, parametrised by abstract types `P` (positions) and `M` (moves)
together with an `Evaluator` record collecting the external operations that
`board.rs` calls.  Every function below mirrors the corresponding Rust method
line by line; Rust `panic!`/`unwrap` sites are modelled as explicit error
values so that their (un)reachability can be stated and proved.
-/
import Mathlib

set_option autoImplicit false

namespace Rschess

/-- The side to move / piece colour (the external `Color` enum). -/
inductive Color : Type
  | white
  | black
deriving DecidableEq

/-- The external `Not` implementation on `Color` (`!color`). -/
def Color.swap : Color → Color
  | .white => .black
  | .black => .white

/-- `Color::is_white`. -/
def Color.is_white : Color → Bool
  | .white => true
  | .black => false

/-- `Color::is_black`. -/
def Color.is_black : Color → Bool
  | .white => false
  | .black => true

/-- Modelled from the spec: the external `Fen` value type is "an immutable
value representation of a serialized game snapshot (position + halfmove clock
+ fullmove number)" (§2); its parsing/validation internals are outside the
core, so a snapshot is an arbitrary such triple. -/
structure Fen (P : Type) : Type where
  position : P
  halfmove_clock : Nat
  fullmove_number : Nat
deriving DecidableEq

/-- Modelled from the spec: the interface of the external position evaluator
and move value types consumed by the ledger (§2, §6).  Fields are the
`Position`/`Move`/`helpers` operations that `board.rs` calls, kept fully
abstract.  `pawn_move_or_capture p m` stands for the test
`matches!(moved_piece, Some(Piece(P, _))) || dest_occ.is_some()` that
`make_move` performs on the pre-move square contents, which is a function of
the pre-move position and the resolved move. -/
structure Evaluator (P M : Type) : Type where
  side : P → Color
  gen_non_illegal_moves : P → List M
  with_move_made : P → M → Option P
  is_stalemate : P → Bool
  is_checkmate : P → Bool
  is_insufficient_material : P → Bool
  stalemated_side : P → Option Color
  checkmated_side : P → Option Color
  move_to_san : P → M → Option String
  san_to_move : P → String → Option M
  from_uci : String → Option M
  as_legal : M → List M → Option M
  pawn_move_or_capture : P → M → Bool

/-- The game-state ledger: the `Board` struct of `src/board.rs`. -/
structure Board (P M : Type) : Type where
  position : P
  halfmove_clock : Nat
  fullmove_number : Nat
  ongoing : Bool
  position_history : List P
  move_history : List M
  halfmove_clock_history : List Nat
  initial_fen : Fen P
  resigned_side : Option Color
  draw_agreed : Bool
deriving DecidableEq

/-- `WinType`. -/
inductive WinType : Type
  | checkmate
  | resignation
deriving DecidableEq

/-- `DrawType` (the variants produced by `game_result`). -/
inductive DrawType : Type
  | agreement
  | stalemate (side : Color)
  | fivefold_repetition
  | seventy_five_move_rule
  | insufficient_material
deriving DecidableEq

/-- `GameResult`. -/
inductive GameResult : Type
  | wins (side : Color) (how : WinType)
  | draw (how : DrawType)
deriving DecidableEq

/-- `make_move` outcome: `IllegalMoveError(move)` on the gate, or the
`unwrap` panic on `with_move_made` (modelled as an explicit error). -/
inductive MakeMoveError (M : Type) : Type
  | illegal (m : M)
  | unwrap_failed
deriving DecidableEq

/-- `InvalidUciMoveError`, plus propagation of a `make_move` panic. -/
inductive UciError : Type
  | invalid_uci (uci : String)
  | illegal_move (uci : String)
  | panicked
deriving DecidableEq

/-- `InvalidSanMoveError`, plus propagation of a `make_move` panic. -/
inductive SanError : Type
  | invalid_san (san : String)
  | panicked
deriving DecidableEq

/-- `undo_move` failure: `NoMovesPlayedError`, or the `unwrap` panics on the
two history pops (modelled as an explicit error). -/
inductive UndoError : Type
  | no_moves_played
  | unwrap_failed
deriving DecidableEq

/-- `GameOverError`. -/
inductive GameOverError : Type
  | resignation
  | agreement_draw
deriving DecidableEq

variable {P M : Type} [DecidableEq P] [DecidableEq M]

set_option linter.unusedSectionVars false

/-- The repetition count computed by `is_threefold_repetition` /
`is_fivefold_repetition`: a fold over `position_history` counting entries
equal to the given position. -/
def count_eq (l : List P) (p : P) : Nat :=
  l.foldl (fun acc pos => if pos = p then acc + 1 else acc) 0

/-- `Board::is_fivefold_repetition`. -/
def is_fivefold_repetition (b : Board P M) : Bool :=
  count_eq b.position_history b.position == 5

/-- `Board::is_seventy_five_move_rule`. -/
def is_seventy_five_move_rule (b : Board P M) : Bool :=
  b.halfmove_clock == 150

/-- `Board::is_stalemate`. -/
def is_stalemate (E : Evaluator P M) (b : Board P M) : Bool :=
  E.is_stalemate b.position

/-- `Board::is_insufficient_material`. -/
def is_insufficient_material (E : Evaluator P M) (b : Board P M) : Bool :=
  E.is_insufficient_material b.position

/-- `Board::is_checkmate`. -/
def is_checkmate (E : Evaluator P M) (b : Board P M) : Bool :=
  E.is_checkmate b.position

/-- `Board::stalemated_side`. -/
def stalemated_side (E : Evaluator P M) (b : Board P M) : Option Color :=
  E.stalemated_side b.position

/-- `Board::checkmated_side`. -/
def checkmated_side (E : Evaluator P M) (b : Board P M) : Option Color :=
  E.checkmated_side b.position

/-- `Board::side_to_move`. -/
def side_to_move (E : Evaluator P M) (b : Board P M) : Color :=
  E.side b.position

/-- `Board::update_status`: sets `ongoing := false` when any of the five
position-derived terminal conditions holds (in the source's order). -/
def update_status (E : Evaluator P M) (b : Board P M) : Board P M :=
  if is_fivefold_repetition b || is_seventy_five_move_rule b || is_stalemate E b
      || is_insufficient_material E b || is_checkmate E b then
    { b with ongoing := false }
  else
    b

/-- `Board::from_fen`. -/
def from_fen (E : Evaluator P M) (fen : Fen P) : Board P M :=
  update_status E
    { position := fen.position
      halfmove_clock := fen.halfmove_clock
      fullmove_number := fen.fullmove_number
      ongoing := decide (fen.halfmove_clock < 150)
      position_history := []
      move_history := []
      halfmove_clock_history := []
      initial_fen := fen
      resigned_side := none
      draw_agreed := false }

/-- `Board::gen_legal_moves`. -/
def gen_legal_moves (E : Evaluator P M) (b : Board P M) : List M :=
  if b.ongoing then E.gen_non_illegal_moves b.position else []

/-- `Board::is_legal`. -/
def is_legal (E : Evaluator P M) (b : Board P M) (m : M) : Bool :=
  (E.as_legal m (gen_legal_moves E b)).isSome

/-- `Board::make_move`.  The `.unwrap()` on `with_move_made` is modelled as
the explicit error `MakeMoveError.unwrap_failed`. -/
def make_move (E : Evaluator P M) (b : Board P M) (m : M) :
    Except (MakeMoveError M) (Board P M) :=
  match E.as_legal m (gen_legal_moves E b) with
  | none => .error (.illegal m)
  | some mv =>
    match E.with_move_made b.position mv with
    | none => .error .unwrap_failed
    | some new_position =>
      .ok (update_status E
        { b with
          position_history := b.position_history ++ [b.position]
          position := new_position
          move_history := b.move_history ++ [mv]
          halfmove_clock_history := b.halfmove_clock_history ++ [b.halfmove_clock]
          halfmove_clock :=
            if E.pawn_move_or_capture b.position mv then 0 else b.halfmove_clock + 1
          fullmove_number :=
            b.fullmove_number + (if (E.side b.position).is_black then 1 else 0) })

/-- `Board::san_to_move`: resolves SAN via the evaluator, then gates on
legality (the source's two error shapes both collapse to `none`). -/
def san_to_move (E : Evaluator P M) (b : Board P M) (san : String) : Option M :=
  match E.san_to_move b.position san with
  | some m => if is_legal E b m then some m else none
  | none => none

/-- `Board::make_move_uci`. -/
def make_move_uci (E : Evaluator P M) (b : Board P M) (uci : String) :
    Except UciError (Board P M) :=
  match E.from_uci uci with
  | none => .error (.invalid_uci uci)
  | some m =>
    match make_move E b m with
    | .ok b2 => .ok b2
    | .error (.illegal _) => .error (.illegal_move uci)
    | .error .unwrap_failed => .error .panicked

/-- `Board::make_move_san`. -/
def make_move_san (E : Evaluator P M) (b : Board P M) (san : String) :
    Except SanError (Board P M) :=
  match san_to_move E b san with
  | none => .error (.invalid_san san)
  | some m =>
    match make_move E b m with
    | .ok b2 => .ok b2
    | .error (.illegal _) => .error (.invalid_san san)
    | .error .unwrap_failed => .error .panicked

/-- The whitespace tokenization `line.split_ascii_whitespace()`: split the
character sequence at whitespace and drop the empty fragments. -/
def split_ascii_whitespace (line : String) : List String :=
  ((line.toList.splitOnP Char.isWhitespace).filter (fun cs => !cs.isEmpty)).map
    (fun cs => String.mk cs)

/-- The loop body of `make_moves_uci`, running on the scratch copy. -/
def make_moves_uci_go (E : Evaluator P M) :
    Board P M → List String → Except UciError (Board P M)
  | board, [] => .ok board
  | board, uci :: rest =>
    match make_move_uci E board uci with
    | .ok b2 => make_moves_uci_go E b2 rest
    | .error e => .error e

/-- `Board::make_moves_uci`: runs the line on a scratch clone and commits it
only on full success; the second component is the final state of `self`. -/
def make_moves_uci (E : Evaluator P M) (b : Board P M) (line : String) :
    Except UciError Unit × Board P M :=
  match make_moves_uci_go E b (split_ascii_whitespace line) with
  | .ok board => (.ok (), board)
  | .error e => (.error e, b)

/-- The loop body of `make_moves_san`, running on the scratch copy. -/
def make_moves_san_go (E : Evaluator P M) :
    Board P M → List String → Except SanError (Board P M)
  | board, [] => .ok board
  | board, san :: rest =>
    match make_move_san E board san with
    | .ok b2 => make_moves_san_go E b2 rest
    | .error e => .error e

/-- `Board::make_moves_san`, analogous to `make_moves_uci`. -/
def make_moves_san (E : Evaluator P M) (b : Board P M) (line : String) :
    Except SanError Unit × Board P M :=
  match make_moves_san_go E b (split_ascii_whitespace line) with
  | .ok board => (.ok (), board)
  | .error e => (.error e, b)

/-- `Board::undo_move`.  Note that the source evaluates `side_to_move()` on
line 170, *before* the position is restored on line 172, so the decrement
test reads the side to move of the post-move (pre-undo) position.  The two
`.unwrap()`s on the history pops are modelled as `UndoError.unwrap_failed`. -/
def undo_move (E : Evaluator P M) (b : Board P M) :
    Except UndoError (Board P M) :=
  if b.move_history.isEmpty then
    .error .no_moves_played
  else
    match b.position_history.getLast?, b.halfmove_clock_history.getLast? with
    | some pos, some clock =>
      .ok { b with
            fullmove_number :=
              b.fullmove_number - (if (E.side b.position).is_white then 1 else 0)
            move_history := b.move_history.dropLast
            position := pos
            position_history := b.position_history.dropLast
            halfmove_clock := clock
            halfmove_clock_history := b.halfmove_clock_history.dropLast
            ongoing := true
            resigned_side := none
            draw_agreed := false }
    | _, _ => .error .unwrap_failed

/-- `Board::game_result`.  The `panic!("the universe is malfunctioning")`
arm is modelled as `Except.error ()`. -/
def game_result (E : Evaluator P M) (b : Board P M) :
    Except Unit (Option GameResult) :=
  if b.ongoing then
    .ok none
  else if b.draw_agreed then
    .ok (some (.draw .agreement))
  else
    match b.resigned_side with
    | some s => .ok (some (.wins s.swap .resignation))
    | none =>
      match checkmated_side E b with
      | some .black => .ok (some (.wins .white .checkmate))
      | some .white => .ok (some (.wins .black .checkmate))
      | none =>
        match stalemated_side E b with
        | some s => .ok (some (.draw (.stalemate s)))
        | none =>
          if is_fivefold_repetition b then
            .ok (some (.draw .fivefold_repetition))
          else if is_seventy_five_move_rule b then
            .ok (some (.draw .seventy_five_move_rule))
          else if is_insufficient_material E b then
            .ok (some (.draw .insufficient_material))
          else
            .error ()

/-- `Board::resign`. -/
def resign (b : Board P M) (side : Color) : Except GameOverError (Board P M) :=
  if !b.ongoing then
    .error .resignation
  else
    .ok { b with ongoing := false, resigned_side := some side }

/-- `Board::agree_draw`. -/
def agree_draw (b : Board P M) : Except GameOverError (Board P M) :=
  if !b.ongoing then
    .error .agreement_draw
  else
    .ok { b with ongoing := false, draw_agreed := true }

/-- The loop of `Board::gen_movetext`; `none` models the two panics inside
the loop (the indexing `position_history[movei]` and the `.unwrap()` on
`move_to_san`). -/
def gen_movetext_go (E : Evaluator P M) (b : Board P M) :
    List M → Nat → Color → Nat → String → Option String
  | [], _, _, _, acc => some acc.trim
  | mv :: rest, movei, current_side, current_fullmove_number, acc =>
    match b.position_history[movei]? with
    | none => none
    | some pos =>
      match E.move_to_san pos mv with
      | none => none
      | some san =>
        if current_side.is_black then
          gen_movetext_go E b rest (movei + 1) current_side.swap
            (current_fullmove_number + 1)
            (acc ++ (if movei == 0 then toString current_fullmove_number ++ "... " else "")
              ++ san ++ " ")
        else
          gen_movetext_go E b rest (movei + 1) current_side.swap
            current_fullmove_number
            (acc ++ toString current_fullmove_number ++ ". " ++ san ++ " ")

/-- `Board::gen_movetext`; `none` models a panic inside the loop. -/
def gen_movetext (E : Evaluator P M) (b : Board P M) : Option String :=
  gen_movetext_go E b b.move_history 0 (E.side b.initial_fen.position)
    b.initial_fen.fullmove_number ""

/-- The caller-visible mutation semantics of `make_move` on `&mut self`:
on error the early `return` happens before any field is written, so the
board is left unchanged. -/
def make_move_mut (E : Evaluator P M) (b : Board P M) (m : M) :
    Board P M × Option (MakeMoveError M) :=
  match make_move E b m with
  | .ok b2 => (b2, none)
  | .error e => (b, some e)

/-- The caller-visible mutation semantics of `undo_move` on `&mut self`. -/
def undo_move_mut (E : Evaluator P M) (b : Board P M) :
    Board P M × Option UndoError :=
  match undo_move E b with
  | .ok b2 => (b2, none)
  | .error e => (b, some e)

/-- Modelled from the spec: the contracts of the external position evaluator
that the ledger relies on (§1, §4.1, §6).  `as_legal_mem`: the legality gate
resolves a candidate "to the fully-specified legal move" of the legal set;
`with_move_made_ok`: "`apply_move(position, Move) -> position'` (must succeed
for any move drawn from `legal_moves`)"; `side_flips`: applying a move in a
two-player turn-based game hands the turn to the opponent; `move_to_san_ok`:
SAN rendering succeeds on legal moves (§4.4 regenerates each played move's
SAN from its pre-move position); the last two fields state that the
`*_side` queries are the `Option`-valued forms of the corresponding
predicates (§4.2). -/
structure EvalOk (E : Evaluator P M) : Prop where
  as_legal_mem : ∀ (m : M) (l : List M) (mv : M), E.as_legal m l = some mv → mv ∈ l
  with_move_made_ok : ∀ (p : P) (m : M),
    m ∈ E.gen_non_illegal_moves p → (E.with_move_made p m).isSome = true
  side_flips : ∀ (p : P) (m : M) (q : P),
    E.with_move_made p m = some q → E.side q = (E.side p).swap
  move_to_san_ok : ∀ (p : P) (m : M),
    m ∈ E.gen_non_illegal_moves p → (E.move_to_san p m).isSome = true
  checkmated_side_ok : ∀ p : P, E.is_checkmate p = (E.checkmated_side p).isSome
  stalemated_side_ok : ∀ p : P, E.is_stalemate p = (E.stalemated_side p).isSome

/-- The board states reachable through the public mutating interface:
construction from a snapshot, `make_move` (through which the UCI/SAN and
line wrappers factor), `undo_move`, `resign` and `agree_draw`. -/
inductive Reachable (E : Evaluator P M) : Board P M → Prop
  | base (fen : Fen P) : Reachable E (from_fen E fen)
  | move {b b' : Board P M} {m : M} :
      Reachable E b → make_move E b m = .ok b' → Reachable E b'
  | undo {b b' : Board P M} :
      Reachable E b → undo_move E b = .ok b' → Reachable E b'
  | resigned {b b' : Board P M} {c : Color} :
      Reachable E b → resign b c = .ok b' → Reachable E b'
  | drew {b b' : Board P M} :
      Reachable E b → agree_draw b = .ok b' → Reachable E b'

/-- The five position-derived terminal conditions of `update_status`, as a
function of the history/position/clock components they read. -/
def any_terminal_at (E : Evaluator P M) (hist : List P) (pos : P) (clock : Nat) : Bool :=
  (count_eq hist pos == 5) || (clock == 150) || E.is_stalemate pos
    || E.is_insufficient_material pos || E.is_checkmate pos

/-- Normal form of `update_status`: only `ongoing` changes, and it stays
`true` exactly when it was `true` and no terminal condition holds. -/
theorem update_status_eq (E : Evaluator P M) (b : Board P M) :
    update_status E b =
      { b with ongoing :=
          b.ongoing && !(any_terminal_at E b.position_history b.position b.halfmove_clock) } := by
  unfold update_status
  have h : (is_fivefold_repetition b || is_seventy_five_move_rule b || is_stalemate E b
      || is_insufficient_material E b || is_checkmate E b)
      = any_terminal_at E b.position_history b.position b.halfmove_clock := rfl
  rw [h]
  cases ht : any_terminal_at E b.position_history b.position b.halfmove_clock <;> simp

/-- The internal invariant maintained by every public operation: histories
are parallel, every recorded pre-move state was non-terminal with its move
drawn from the legal set, an ongoing game is non-terminal with clear
resignation/draw flags, and (when the initial snapshot's clock is within the
seventy-five-move bound) a finished game exhibits at least one terminal
condition. -/
structure Inv (E : Evaluator P M) (b : Board P M) : Prop where
  len_pos_move : b.position_history.length = b.move_history.length
  len_pos_clock : b.position_history.length = b.halfmove_clock_history.length
  hist_ok : ∀ (i : Nat) (p : P) (c : Nat) (mv : M),
    b.position_history[i]? = some p →
    b.halfmove_clock_history[i]? = some c →
    b.move_history[i]? = some mv →
    any_terminal_at E (b.position_history.take i) p c = false ∧
      mv ∈ E.gen_non_illegal_moves p
  cur_ok : b.ongoing = true →
    any_terminal_at E b.position_history b.position b.halfmove_clock = false ∧
      b.resigned_side = none ∧ b.draw_agreed = false
  term_ok : b.initial_fen.halfmove_clock ≤ 150 → b.ongoing = false →
    b.draw_agreed = true ∨ b.resigned_side.isSome = true ∨
      any_terminal_at E b.position_history b.position b.halfmove_clock = true

/-- Destructor for a successful `make_move`: the gate resolved the move, the
evaluator advanced the position, and the result is the pushed-and-updated
board. -/
theorem make_move_eq_ok {E : Evaluator P M} {b b' : Board P M} {m : M}
    (h : make_move E b m = .ok b') :
    ∃ mv new_position, E.as_legal m (gen_legal_moves E b) = some mv ∧
      E.with_move_made b.position mv = some new_position ∧
      b' = update_status E
        { b with
          position_history := b.position_history ++ [b.position]
          position := new_position
          move_history := b.move_history ++ [mv]
          halfmove_clock_history := b.halfmove_clock_history ++ [b.halfmove_clock]
          halfmove_clock :=
            if E.pawn_move_or_capture b.position mv then 0 else b.halfmove_clock + 1
          fullmove_number :=
            b.fullmove_number + (if (E.side b.position).is_black then 1 else 0) } := by
  unfold make_move at h
  split at h
  · cases h
  · rename_i mv h1
    split at h
    · cases h
    · rename_i np h2
      injection h with h
      exact ⟨mv, np, h1, h2, h.symm⟩

/-- A move can only be successfully made while the game is ongoing. -/
theorem make_move_ok_ongoing {E : Evaluator P M} {b b' : Board P M} {m : M}
    (hE : EvalOk E) (h : make_move E b m = .ok b') : b.ongoing = true := by
  obtain ⟨mv, _, h1, _, _⟩ := make_move_eq_ok h
  have hmem := hE.as_legal_mem _ _ _ h1
  cases hog : b.ongoing
  · rw [gen_legal_moves, hog] at hmem
    simp at hmem
  · rfl

/-- Destructor for a successful `undo_move`. -/
theorem undo_move_eq_ok {E : Evaluator P M} {b b' : Board P M}
    (h : undo_move E b = .ok b') :
    b.move_history ≠ [] ∧ ∃ pos clock,
      b.position_history.getLast? = some pos ∧
      b.halfmove_clock_history.getLast? = some clock ∧
      b' = { b with
             fullmove_number :=
               b.fullmove_number - (if (E.side b.position).is_white then 1 else 0)
             move_history := b.move_history.dropLast
             position := pos
             position_history := b.position_history.dropLast
             halfmove_clock := clock
             halfmove_clock_history := b.halfmove_clock_history.dropLast
             ongoing := true
             resigned_side := none
             draw_agreed := false } := by
  unfold undo_move at h
  split at h
  · cases h
  · rename_i hne
    cases h1 : b.position_history.getLast? with
    | none =>
      simp only [h1] at h
      cases h
    | some pos =>
      cases h2 : b.halfmove_clock_history.getLast? with
      | none =>
        simp only [h1, h2] at h
        cases h
      | some clock =>
        simp only [h1, h2] at h
        injection h with h
        exact ⟨by simpa using hne, pos, clock, rfl, rfl, h.symm⟩

/-- Destructor for a successful `resign`. -/
theorem resign_eq_ok {b b' : Board P M} {c : Color} (h : resign b c = .ok b') :
    b.ongoing = true ∧ b' = { b with ongoing := false, resigned_side := some c } := by
  unfold resign at h
  split at h
  · cases h
  · rename_i hog
    injection h with h
    exact ⟨by simpa using hog, h.symm⟩

/-- Destructor for a successful `agree_draw`. -/
theorem agree_draw_eq_ok {b b' : Board P M} (h : agree_draw b = .ok b') :
    b.ongoing = true ∧ b' = { b with ongoing := false, draw_agreed := true } := by
  unfold agree_draw at h
  split at h
  · cases h
  · rename_i hog
    injection h with h
    exact ⟨by simpa using hog, h.symm⟩

/-- While the game is ongoing, the board's legal moves are the evaluator's. -/
theorem gen_legal_moves_of_ongoing {E : Evaluator P M} {b : Board P M}
    (h : b.ongoing = true) :
    gen_legal_moves E b = E.gen_non_illegal_moves b.position := by
  simp [gen_legal_moves, h]

/-- Every reachable board state satisfies the internal invariant. -/
theorem reachable_inv {E : Evaluator P M} (hE : EvalOk E) {b : Board P M}
    (hr : Reachable E b) : Inv E b := by
  induction hr with
  | base fen =>
    rw [from_fen, update_status_eq]
    constructor
    · rfl
    · rfl
    · intro i p c mv hp _ _
      simp at hp
    · intro hog
      simp only [Bool.and_eq_true, Bool.not_eq_eq_eq_not, Bool.not_true,
        decide_eq_true_eq] at hog
      exact ⟨hog.2, rfl, rfl⟩
    · intro hcl hog
      simp only [Bool.and_eq_false_iff, decide_eq_false_iff_not, Nat.not_lt,
        Bool.not_eq_false'] at hog
      rcases hog with hog | hog
      · right; right
        have h150 : fen.halfmove_clock = 150 := Nat.le_antisymm hcl hog
        simp [any_terminal_at, h150]
      · right; right; exact hog
  | move hr h ih =>
    rename_i b b' m
    have hog := make_move_ok_ongoing hE h
    obtain ⟨hterm, hres, hdraw⟩ := ih.cur_ok hog
    obtain ⟨mv, np, h1, h2, hb'⟩ := make_move_eq_ok h
    have hmem : mv ∈ E.gen_non_illegal_moves b.position := by
      have := hE.as_legal_mem _ _ _ h1
      rwa [gen_legal_moves_of_ongoing hog] at this
    subst hb'
    rw [update_status_eq]
    have hlenm := ih.len_pos_move
    have hlenc := ih.len_pos_clock
    constructor
    · simp [hlenm]
    · simp [hlenc]
    · intro i p c mv' hp hc hm
      rcases Nat.lt_trichotomy i b.position_history.length with hi | hi | hi
      · rw [List.getElem?_append_left hi] at hp
        rw [List.getElem?_append_left (by omega)] at hc
        rw [List.getElem?_append_left (by omega)] at hm
        rw [List.take_append_of_le_length (Nat.le_of_lt hi)]
        exact ih.hist_ok i p c mv' hp hc hm
      · subst hi
        rw [List.getElem?_concat_length] at hp
        rw [show b.position_history.length = b.halfmove_clock_history.length from hlenc,
          List.getElem?_concat_length] at hc
        rw [show b.position_history.length = b.move_history.length from hlenm,
          List.getElem?_concat_length] at hm
        injection hp with hp
        injection hc with hc
        injection hm with hm
        subst hp; subst hc; subst hm
        rw [List.take_left' rfl]
        exact ⟨hterm, hmem⟩
      · rw [List.getElem?_eq_none (by simp; omega)] at hp
        cases hp
    · intro hog'
      simp only [hog, Bool.true_and, Bool.not_eq_eq_eq_not, Bool.not_true] at hog'
      exact ⟨hog', hres, hdraw⟩
    · intro _ hog'
      simp only [hog, Bool.true_and, Bool.not_eq_false'] at hog'
      right; right; exact hog'
  | undo hr h ih =>
    rename_i b b'
    obtain ⟨hne, pos, clock, h1, h2, hb'⟩ := undo_move_eq_ok h
    have hlenm := ih.len_pos_move
    have hlenc := ih.len_pos_clock
    have hn : 0 < b.position_history.length := by
      rw [hlenm]
      exact List.length_pos.mpr hne
    rw [List.getLast?_eq_getElem?] at h1
    rw [List.getLast?_eq_getElem?] at h2
    have hmv : ∃ mv, b.move_history[b.position_history.length - 1]? = some mv := by
      have : b.position_history.length - 1 < b.move_history.length := by omega
      exact ⟨_, List.getElem?_eq_getElem this⟩
    obtain ⟨mv, hm⟩ := hmv
    have hc2 : b.halfmove_clock_history[b.position_history.length - 1]? = some clock := by
      rw [show b.position_history.length = b.halfmove_clock_history.length from hlenc]
      exact h2
    obtain ⟨hterm, hmem⟩ := ih.hist_ok (b.position_history.length - 1) pos clock mv h1 hc2 hm
    subst hb'
    constructor
    · simp [hlenm]
    · simp [hlenc]
    · intro i p c mv' hp hc hm'
      rw [List.getElem?_dropLast] at hp hc hm'
      split at hp
      · rename_i hilt
        split at hc
        · split at hm'
          · rw [List.dropLast_eq_take, List.take_take,
              Nat.min_eq_left (by omega)]
            exact ih.hist_ok i p c mv' hp hc hm'
          · cases hm'
        · cases hc
      · cases hp
    · intro _
      refine ⟨?_, rfl, rfl⟩
      rw [List.dropLast_eq_take]
      exact hterm
    · intro _ hog'
      cases hog'
  | resigned hr h ih =>
    rename_i b b' c
    obtain ⟨hog, hb'⟩ := resign_eq_ok h
    subst hb'
    constructor
    · exact ih.len_pos_move
    · exact ih.len_pos_clock
    · exact ih.hist_ok
    · intro hog'
      cases hog'
    · intro _ _
      right; left; rfl
  | drew hr h ih =>
    rename_i b b'
    obtain ⟨hog, hb'⟩ := agree_draw_eq_ok h
    subst hb'
    constructor
    · exact ih.len_pos_move
    · exact ih.len_pos_clock
    · exact ih.hist_ok
    · intro hog'
      cases hog'
    · intro _ _
      left; rfl

/-- A minimal concrete evaluator used to run the ledger on explicit inputs:
a position records only the side to move, there is always exactly one legal
move (of type `Unit`), and playing it hands the turn to the opponent.  It
satisfies every evaluator contract (`toyE_ok`). -/
def toyE : Evaluator Color Unit where
  side := id
  gen_non_illegal_moves := fun _ => [()]
  with_move_made := fun p _ => some p.swap
  is_stalemate := fun _ => false
  is_checkmate := fun _ => false
  is_insufficient_material := fun _ => false
  stalemated_side := fun _ => none
  checkmated_side := fun _ => none
  move_to_san := fun _ _ => some "Z1"
  san_to_move := fun _ _ => some ()
  from_uci := fun _ => some ()
  as_legal := fun _ l => l.head?
  pawn_move_or_capture := fun _ _ => false

/-- The toy evaluator satisfies the evaluator contracts. -/
theorem toyE_ok : EvalOk toyE := by
  constructor
  · intro m l mv h
    cases l with
    | nil => cases h
    | cons a t => exact List.mem_cons_self a t
  · intro p m _
    rfl
  · intro p m q h
    injection h with h
    subst h
    rfl
  · intro p m _
    rfl
  · intro p
    rfl
  · intro p
    rfl

/-- The starting snapshot used for the concrete runs. -/
def toyFen : Fen Color := ⟨.white, 0, 1⟩

/-- Keep the result of a fallible step, or the previous board on error
(used only to write down concrete runs). -/
def ok_or {ε : Type} (b : Board P M) : Except ε (Board P M) → Board P M
  | .ok b2 => b2
  | .error _ => b

/-- The concrete game: `n` successive `make_move` steps from `toyFen`. -/
def toyIter : Nat → Board Color Unit
  | 0 => from_fen toyE toyFen
  | n + 1 => ok_or (toyIter n) (make_move toyE (toyIter n) ())

/-- Every state of the concrete run is reachable. -/
theorem toyIter_reachable (n : Nat) : Reachable toyE (toyIter n) := by
  induction n with
  | zero => exact .base toyFen
  | succ k ih =>
    show Reachable toyE (ok_or (toyIter k) (make_move toyE (toyIter k) ()))
    cases h : make_move toyE (toyIter k) () with
    | ok b2 => exact ih.move h
    | error e => exact ih

/-- The state after black's reply from the snapshot `(black to move, 0, 1)`:
the last recorded move was played by black, the side to move is white. -/
def c1_board : Board Color Unit :=
  { position := .white
    halfmove_clock := 1
    fullmove_number := 2
    ongoing := true
    position_history := [.black]
    move_history := [()]
    halfmove_clock_history := [0]
    initial_fen := ⟨.black, 0, 1⟩
    resigned_side := none
    draw_agreed := false }

/-- C1 (counterexample): on a board with non-empty `move_history` whose last
move was played by black, `undo_move` succeeds, the side to move after the
undo is black (not white), yet `fullmove_number` is decremented from 2 to 1 —
contradicting the claim that undoing a move played by black leaves
`fullmove_number` unchanged (and that a decrement happens exactly when the
side to move after the undo is white). -/
theorem c1_counterexample :
    c1_board.move_history ≠ [] ∧
    (undo_move toyE c1_board).map (fun b => toyE.side b.position) = .ok Color.black ∧
    c1_board.fullmove_number = 2 ∧
    (undo_move toyE c1_board).map (fun b => b.fullmove_number) = .ok 1 :=
  ⟨by decide, rfl, rfl, rfl⟩

/-- C1 (amended): a successful `undo_move` decrements `fullmove_number`
exactly when the side to move *before* the undo (the side to move of the
position being popped away, i.e. the opponent of the player of the undone
move) is white: undoing a move played by black decrements it, undoing a move
played by white leaves it unchanged. -/
theorem c1_undo_fullmove {E : Evaluator P M} {b b' : Board P M}
    (h : undo_move E b = .ok b') :
    (E.side b.position = .white → b'.fullmove_number = b.fullmove_number - 1) ∧
    (E.side b.position = .black → b'.fullmove_number = b.fullmove_number) := by
  obtain ⟨hne, pos, clock, h1, h2, hb'⟩ := undo_move_eq_ok h
  subst hb'
  constructor <;> intro hs <;> simp [hs, Color.is_white]

/-- C1 witness: the amended law evaluated on the concrete board. -/
theorem c1_undo_fullmove_witness :
    toyE.side c1_board.position = Color.white ∧
    (ok_or c1_board (undo_move toyE c1_board)).fullmove_number =
      c1_board.fullmove_number - 1 :=
  ⟨rfl, (c1_undo_fullmove (show undo_move toyE c1_board
    = .ok (ok_or c1_board (undo_move toyE c1_board)) from by rfl)).1 rfl⟩

/-- The fold of `count_eq` shifts over its accumulator. -/
theorem count_eq_foldl_acc (l : List P) (p : P) (acc : Nat) :
    l.foldl (fun a pos => if pos = p then a + 1 else a) acc = acc + count_eq l p := by
  induction l generalizing acc with
  | nil => simp [count_eq]
  | cons q t ih =>
    show t.foldl _ (if q = p then acc + 1 else acc) = acc + count_eq (q :: t) p
    rw [ih]
    have h2 : count_eq (q :: t) p = (if q = p then 1 else 0) + count_eq t p := by
      show t.foldl _ (if q = p then 1 else 0) = _
      rw [ih]
    rw [h2]
    split <;> omega

/-- Counting over a cons cell. -/
theorem count_eq_cons (l : List P) (q p : P) :
    count_eq (q :: l) p = (if q = p then 1 else 0) + count_eq l p := by
  show l.foldl _ (if q = p then 1 else 0) = _
  rw [count_eq_foldl_acc]

/-- C2 (counterexample): `toyIter 8` is a reachable state whose current
position equals exactly 4 entries of `position_history` — the position has
occurred 5 times in total — yet `is_fivefold_repetition` is `false` and the
game is still ongoing, contradicting the claim that the fifth occurrence is
detected. -/
theorem c2_counterexample :
    Reachable toyE (toyIter 8) ∧
    count_eq (toyIter 8).position_history (toyIter 8).position = 4 ∧
    is_fivefold_repetition (toyIter 8) = false ∧
    (toyIter 8).ongoing = true :=
  ⟨toyIter_reachable 8, by decide, by decide, by decide⟩

/-- C2 (amended): `is_fivefold_repetition()` is true exactly when the current
position equals exactly 5 entries of `position_history`, i.e. when the
position has occurred 6 times in total counting the current occurrence; a
position reached for the sixth time makes the game not ongoing after the
move. -/
theorem c2_fivefold {E : Evaluator P M} (b : Board P M) :
    (is_fivefold_repetition b = true ↔
      count_eq (b.position :: b.position_history) b.position = 6) ∧
    (∀ (m : M) (b' : Board P M), make_move E b m = .ok b' →
      is_fivefold_repetition b' = true → b'.ongoing = false) := by
  constructor
  · rw [count_eq_cons]
    simp [is_fivefold_repetition]
    omega
  · intro m b' h hf
    obtain ⟨mv, np, h1, h2, hb'⟩ := make_move_eq_ok h
    subst hb'
    rw [update_status_eq] at hf ⊢
    simp [is_fivefold_repetition] at hf
    simp [any_terminal_at, hf]

/-- C2 witness: the sixth occurrence in the concrete run ends the game. -/
theorem c2_fivefold_witness : (toyIter 10).ongoing = false :=
  (c2_fivefold (E := toyE) (toyIter 9)).2 () (toyIter 10) (by rfl) (by decide)

/-- `any_terminal_at` at the current components is the disjunction of the
five board-level terminal predicates. -/
theorem any_terminal_now_eq (E : Evaluator P M) (b : Board P M) :
    any_terminal_at E b.position_history b.position b.halfmove_clock =
      (is_fivefold_repetition b || is_seventy_five_move_rule b || is_stalemate E b
        || is_insufficient_material E b || is_checkmate E b) := rfl

/-- A snapshot whose halfmove clock is already beyond the 75-move threshold. -/
def fen151 : Fen Color := ⟨.white, 151, 1⟩

/-- The board constructed from `fen151`. -/
def b151 : Board Color Unit := from_fen toyE fen151

/-- A snapshot whose halfmove clock is exactly at the 75-move threshold. -/
def fen150 : Fen Color := ⟨.white, 150, 1⟩

/-- The board constructed from `fen150`. -/
def b150 : Board Color Unit := from_fen toyE fen150

/-- C3 (counterexample): constructing a board from a snapshot with halfmove
clock 151 (a contract-satisfying evaluator, quiet position) yields
`ongoing = false`, yet `game_result` reaches the internal panic (`.error ()`)
instead of returning `Some` — `from_fen` turns the game off via
`halfmove_clock < 150` while the seventy-five-move predicate tests
`halfmove_clock == 150` and no other branch matches. -/
theorem c3_counterexample :
    EvalOk toyE ∧ Reachable toyE b151 ∧ b151.ongoing = false ∧
    game_result toyE b151 = .error () :=
  ⟨toyE_ok, .base fen151, by decide, rfl⟩

/-- C3 (amended): for boards reachable from a snapshot whose halfmove clock
is at most 150, `game_result` returns `none` when the game is ongoing and
returns `some` result — never reaching the panic — when it is not. -/
theorem c3_game_result {E : Evaluator P M} {b : Board P M} (hE : EvalOk E)
    (hr : Reachable E b) (hcl : b.initial_fen.halfmove_clock ≤ 150) :
    (b.ongoing = true → game_result E b = .ok none) ∧
    (b.ongoing = false → game_result E b ≠ .ok none ∧ game_result E b ≠ .error ()) := by
  constructor
  · intro hog
    simp [game_result, hog]
  · intro hog
    have hInv := reachable_inv hE hr
    have disj := hInv.term_ok hcl hog
    cases hda : b.draw_agreed with
    | true => simp [game_result, hog, hda]
    | false =>
      cases hres : b.resigned_side with
      | some s => simp [game_result, hog, hda, hres]
      | none =>
        cases hcs : E.checkmated_side b.position with
        | some c =>
          cases c <;> simp [game_result, checkmated_side, hog, hda, hres, hcs]
        | none =>
          cases hss : E.stalemated_side b.position with
          | some s =>
            simp [game_result, checkmated_side, stalemated_side, hog, hda, hres, hcs, hss]
          | none =>
            have hchk : is_checkmate E b = false := by
              show E.is_checkmate b.position = false
              rw [hE.checkmated_side_ok, hcs]
              rfl
            have hstl : is_stalemate E b = false := by
              show E.is_stalemate b.position = false
              rw [hE.stalemated_side_ok, hss]
              rfl
            rcases disj with h | h | h
            · rw [hda] at h
              cases h
            · rw [hres] at h
              cases h
            · rw [any_terminal_now_eq, hchk, hstl] at h
              cases hf : is_fivefold_repetition b
              · cases h75 : is_seventy_five_move_rule b
                · cases hins : is_insufficient_material E b
                  · rw [hf, h75, hins] at h
                    cases h
                  · simp [game_result, checkmated_side, stalemated_side, hog, hda,
                      hres, hcs, hss, hf, h75, hins]
                · simp [game_result, checkmated_side, stalemated_side, hog, hda,
                    hres, hcs, hss, hf, h75]
              · simp [game_result, checkmated_side, stalemated_side, hog, hda,
                  hres, hcs, hss, hf]

/-- C3 witness: the amended law at the threshold snapshot `fen150`. -/
theorem c3_game_result_witness :
    game_result toyE b150 ≠ .ok none ∧ game_result toyE b150 ≠ .error () :=
  (c3_game_result toyE_ok (.base fen150) (by decide)).2 (by decide)

/-- C4 (counterexample): the board built from the clock-151 snapshot has
`ongoing = false` although none of the seven terminal conditions of §4.2
holds, refuting the claimed invariant for states produced by construction
from a snapshot. -/
theorem c4_counterexample :
    EvalOk toyE ∧ Reachable toyE b151 ∧ b151.ongoing = false ∧
    (is_fivefold_repetition b151 || is_seventy_five_move_rule b151
      || is_stalemate toyE b151 || is_insufficient_material toyE b151
      || is_checkmate toyE b151 || b151.resigned_side.isSome
      || b151.draw_agreed) = false :=
  ⟨toyE_ok, .base fen151, by decide, by decide⟩

/-- C4 (amended): for boards reachable from a snapshot whose halfmove clock
is at most 150, `ongoing = false` holds exactly when at least one of the
seven terminal conditions holds; in particular `ongoing = true` implies none
of them hold. -/
theorem c4_terminal_iff {E : Evaluator P M} {b : Board P M} (hE : EvalOk E)
    (hr : Reachable E b) (hcl : b.initial_fen.halfmove_clock ≤ 150) :
    b.ongoing = false ↔
      (is_fivefold_repetition b = true ∨ is_seventy_five_move_rule b = true ∨
        is_stalemate E b = true ∨ is_insufficient_material E b = true ∨
        is_checkmate E b = true ∨ b.resigned_side.isSome = true ∨
        b.draw_agreed = true) := by
  have hInv := reachable_inv hE hr
  constructor
  · intro hog
    rcases hInv.term_ok hcl hog with h | h | h
    · tauto
    · tauto
    · rw [any_terminal_now_eq] at h
      simp only [Bool.or_eq_true] at h
      tauto
  · intro hdis
    cases hog : b.ongoing
    · rfl
    · exfalso
      obtain ⟨hterm, hres, hdraw⟩ := hInv.cur_ok hog
      rw [any_terminal_now_eq] at hterm
      rcases hdis with h | h | h | h | h | h | h <;> simp_all

/-- C4 witness: at the threshold snapshot, the 75-move condition holds and
forces `ongoing = false` through the amended invariant. -/
theorem c4_terminal_iff_witness : b150.ongoing = false :=
  (c4_terminal_iff toyE_ok (.base fen150) (by decide)).mpr
    (Or.inr (Or.inl (by decide)))

/-- A failed UCI line run names the first failing token: the tokens split
into a successfully applied prefix and a failing move whose error is the one
reported. -/
theorem make_moves_uci_go_error {E : Evaluator P M} :
    ∀ {l : List String} {b : Board P M} {e : UciError},
      make_moves_uci_go E b l = .error e →
      ∃ pre t rest b2, l = pre ++ t :: rest ∧
        make_moves_uci_go E b pre = .ok b2 ∧ make_move_uci E b2 t = .error e := by
  intro l
  induction l with
  | nil =>
    intro b e h
    cases h
  | cons t rest ih =>
    intro b e h
    unfold make_moves_uci_go at h
    cases hm : make_move_uci E b t with
    | ok b2 =>
      rw [hm] at h
      obtain ⟨pre, t2, rest2, b3, hl, hgo, hfail⟩ := ih h
      refine ⟨t :: pre, t2, rest2, b3, by rw [hl]; rfl, ?_, hfail⟩
      show make_moves_uci_go E b (t :: pre) = .ok b3
      unfold make_moves_uci_go
      rw [hm]
      exact hgo
    | error e2 =>
      rw [hm] at h
      injection h with h
      subst h
      exact ⟨[], t, rest, b, rfl, rfl, hm⟩

/-- SAN analogue of `make_moves_uci_go_error`. -/
theorem make_moves_san_go_error {E : Evaluator P M} :
    ∀ {l : List String} {b : Board P M} {e : SanError},
      make_moves_san_go E b l = .error e →
      ∃ pre t rest b2, l = pre ++ t :: rest ∧
        make_moves_san_go E b pre = .ok b2 ∧ make_move_san E b2 t = .error e := by
  intro l
  induction l with
  | nil =>
    intro b e h
    cases h
  | cons t rest ih =>
    intro b e h
    unfold make_moves_san_go at h
    cases hm : make_move_san E b t with
    | ok b2 =>
      rw [hm] at h
      obtain ⟨pre, t2, rest2, b3, hl, hgo, hfail⟩ := ih h
      refine ⟨t :: pre, t2, rest2, b3, by rw [hl]; rfl, ?_, hfail⟩
      show make_moves_san_go E b (t :: pre) = .ok b3
      unfold make_moves_san_go
      rw [hm]
      exact hgo
    | error e2 =>
      rw [hm] at h
      injection h with h
      subst h
      exact ⟨[], t, rest, b, rfl, rfl, hm⟩

/-- C5: `make_moves_uci` (and likewise `make_moves_san`) is all-or-nothing:
if each parsed token applies successfully in order, the committed board is
the result of that sequential application; if any token fails, the board is
returned completely unchanged and the reported error is the error of the
first failing move (the one reached after successfully applying the tokens
before it). -/
theorem c5_make_moves_atomic {E : Evaluator P M} (b : Board P M) (line : String) :
    (∀ bf : Board P M,
      make_moves_uci_go E b (split_ascii_whitespace line) = .ok bf →
        make_moves_uci E b line = (.ok (), bf)) ∧
    (∀ e : UciError,
      make_moves_uci_go E b (split_ascii_whitespace line) = .error e →
        make_moves_uci E b line = (.error e, b) ∧
        ∃ pre t rest b2, split_ascii_whitespace line = pre ++ t :: rest ∧
          make_moves_uci_go E b pre = .ok b2 ∧ make_move_uci E b2 t = .error e) ∧
    (∀ bf : Board P M,
      make_moves_san_go E b (split_ascii_whitespace line) = .ok bf →
        make_moves_san E b line = (.ok (), bf)) ∧
    (∀ e : SanError,
      make_moves_san_go E b (split_ascii_whitespace line) = .error e →
        make_moves_san E b line = (.error e, b) ∧
        ∃ pre t rest b2, split_ascii_whitespace line = pre ++ t :: rest ∧
          make_moves_san_go E b pre = .ok b2 ∧ make_move_san E b2 t = .error e) := by
  refine ⟨fun bf h => ?_, fun e h => ⟨?_, make_moves_uci_go_error h⟩,
    fun bf h => ?_, fun e h => ⟨?_, make_moves_san_go_error h⟩⟩
  · unfold make_moves_uci
    rw [h]
  · unfold make_moves_uci
    rw [h]
  · unfold make_moves_san
    rw [h]
  · unfold make_moves_san
    rw [h]

/-- C5 witness: on the finished board `b150` the first token of the line
fails, the error of that first move is reported, and the board is returned
unchanged. -/
theorem c5_make_moves_atomic_witness :
    make_moves_uci toyE b150 "a b" = (.error (.illegal_move "a"), b150) :=
  ((c5_make_moves_atomic (E := toyE) b150 "a b").2.1 (.illegal_move "a") (by rfl)).1

/-- Two boards with equal fields are equal. -/
theorem board_ext {b1 b2 : Board P M}
    (h1 : b1.position = b2.position)
    (h2 : b1.halfmove_clock = b2.halfmove_clock)
    (h3 : b1.fullmove_number = b2.fullmove_number)
    (h4 : b1.ongoing = b2.ongoing)
    (h5 : b1.position_history = b2.position_history)
    (h6 : b1.move_history = b2.move_history)
    (h7 : b1.halfmove_clock_history = b2.halfmove_clock_history)
    (h8 : b1.initial_fen = b2.initial_fen)
    (h9 : b1.resigned_side = b2.resigned_side)
    (h10 : b1.draw_agreed = b2.draw_agreed) : b1 = b2 := by
  cases b1
  cases b2
  simp_all

/-- C6: on a reachable board, a successful `make_move` followed by
`undo_move` restores the original board exactly — same position, both
counters, all three histories, `ongoing`, `resigned_side`, `draw_agreed`
(and the initial snapshot). -/
theorem c6_make_undo_roundtrip {E : Evaluator P M} {b b' : Board P M} {m : M}
    (hE : EvalOk E) (hr : Reachable E b) (h : make_move E b m = .ok b') :
    undo_move E b' = .ok b := by
  have hInv := reachable_inv hE hr
  have hog := make_move_ok_ongoing hE h
  obtain ⟨hterm, hres, hdraw⟩ := hInv.cur_ok hog
  obtain ⟨mv, np, h1, h2, hb'⟩ := make_move_eq_ok h
  have hside := hE.side_flips _ _ _ h2
  subst hb'
  rw [update_status_eq]
  unfold undo_move
  dsimp only
  have hcond : (b.move_history ++ [mv]).isEmpty = false := by simp
  rw [hcond, List.getLast?_concat, List.getLast?_concat]
  dsimp only
  refine congrArg Except.ok ?_
  have hfm : (b.fullmove_number + (if (E.side b.position).is_black then 1 else 0)) -
      (if (E.side np).is_white then 1 else 0) = b.fullmove_number := by
    rw [hside]
    cases E.side b.position <;>
      simp [Color.swap, Color.is_white, Color.is_black]
  exact board_ext rfl rfl hfm hog.symm List.dropLast_concat List.dropLast_concat
    List.dropLast_concat rfl hres.symm hdraw.symm

/-- C6 witness: the first concrete move undoes back to the initial board. -/
theorem c6_make_undo_roundtrip_witness :
    undo_move toyE (toyIter 1) = .ok (toyIter 0) :=
  c6_make_undo_roundtrip toyE_ok (toyIter_reachable 0)
    (show make_move toyE (toyIter 0) () = .ok (toyIter 1) from rfl)

/-- Modelled from the spec: the fixed precedence order of §4.2 as an ordered
list of optional results, first `some` winning — draw-by-agreement,
resignation (winner the opposite side), checkmate (winner the side that
delivered it, i.e. the opponent of the checkmated side), stalemate,
fivefold repetition, seventy-five-move rule, insufficient material. -/
def precedence_list (E : Evaluator P M) (b : Board P M) : List (Option GameResult) :=
  [ if b.draw_agreed then some (.draw .agreement) else none,
    b.resigned_side.map (fun s => .wins s.swap .resignation),
    (checkmated_side E b).map (fun s => .wins s.swap .checkmate),
    (stalemated_side E b).map (fun s => .draw (.stalemate s)),
    if is_fivefold_repetition b then some (.draw .fivefold_repetition) else none,
    if is_seventy_five_move_rule b then some (.draw .seventy_five_move_rule) else none,
    if is_insufficient_material E b then some (.draw .insufficient_material) else none ]

/-- C7: whenever the game is over, `game_result` is exactly the first match
of the spec's precedence list (and the panic arm corresponds to no entry
matching). -/
theorem c7_precedence {E : Evaluator P M} (b : Board P M) (hog : b.ongoing = false) :
    game_result E b =
      match (precedence_list E b).findSome? id with
      | some r => .ok (some r)
      | none => .error () := by
  cases hda : b.draw_agreed with
  | true => simp [game_result, precedence_list, hog, hda, List.findSome?]
  | false =>
    cases hres : b.resigned_side with
    | some s => simp [game_result, precedence_list, hog, hda, hres, List.findSome?]
    | none =>
      cases hcs : E.checkmated_side b.position with
      | some c =>
        cases c <;>
          simp [game_result, precedence_list, checkmated_side, hog, hda, hres, hcs,
            List.findSome?, Color.swap]
      | none =>
        cases hss : E.stalemated_side b.position with
        | some s =>
          simp [game_result, precedence_list, checkmated_side, stalemated_side,
            hog, hda, hres, hcs, hss, List.findSome?]
        | none =>
          cases hf : is_fivefold_repetition b <;>
            cases h75 : is_seventy_five_move_rule b <;>
              cases hins : is_insufficient_material E b <;>
                simp [game_result, precedence_list, checkmated_side, stalemated_side,
                  hog, hda, hres, hcs, hss, hf, h75, hins, List.findSome?]

/-- C7 witness: at the threshold board the first matching entry is the
seventy-five-move rule, and `game_result` returns exactly that draw. -/
theorem c7_precedence_witness :
    game_result toyE b150 = .ok (some (.draw .seventy_five_move_rule)) :=
  (c7_precedence (E := toyE) b150 (by decide)).trans (by rfl)

/-- C8: when the game is over, the legal-move set is empty and every move is
rejected with `IllegalMove` (carrying the submitted move); and whenever
`make_move` fails, the caller-visible board is left completely unchanged. -/
theorem c8_game_over_rejects {E : Evaluator P M} (hE : EvalOk E) (b : Board P M) :
    (b.ongoing = false → gen_legal_moves E b = [] ∧
      ∀ m : M, make_move E b m = .error (.illegal m)) ∧
    (∀ m : M, (make_move_mut E b m).2.isSome = true → (make_move_mut E b m).1 = b) := by
  constructor
  · intro hog
    have hleg : gen_legal_moves E b = [] := by simp [gen_legal_moves, hog]
    refine ⟨hleg, fun m => ?_⟩
    unfold make_move
    rw [hleg]
    cases hA : E.as_legal m ([] : List M) with
    | none => rfl
    | some mv =>
      have := hE.as_legal_mem _ _ _ hA
      simp at this
  · intro m hsome
    unfold make_move_mut at hsome ⊢
    cases hmm : make_move E b m with
    | ok b2 =>
      rw [hmm] at hsome
      simp at hsome
    | error e => rfl

/-- C8 witness: on the finished threshold board the legal-move set is empty
and the unique toy move is rejected as illegal. -/
theorem c8_game_over_rejects_witness :
    gen_legal_moves toyE b150 = [] ∧ make_move toyE b150 () = .error (.illegal ()) :=
  ⟨((c8_game_over_rejects toyE_ok b150).1 (by decide)).1,
    ((c8_game_over_rejects toyE_ok b150).1 (by decide)).2 ()⟩

/-- C9: on reachable boards, `undo_move` fails with `NoMovesPlayed` exactly
when `move_history` is empty — leaving the board unchanged — and on success
it pops all three histories together and unconditionally revives the game:
`ongoing = true`, `resigned_side = none`, `draw_agreed = false`, regardless
of what ended it. -/
theorem c9_undo_contract {E : Evaluator P M} {b : Board P M} (hE : EvalOk E)
    (hr : Reachable E b) :
    (undo_move E b = .error .no_moves_played ↔ b.move_history = []) ∧
    (b.move_history = [] → undo_move_mut E b = (b, some .no_moves_played)) ∧
    (b.move_history ≠ [] → ∃ b', undo_move E b = .ok b' ∧
      b'.position_history = b.position_history.dropLast ∧
      b'.move_history = b.move_history.dropLast ∧
      b'.halfmove_clock_history = b.halfmove_clock_history.dropLast ∧
      b'.ongoing = true ∧ b'.resigned_side = none ∧ b'.draw_agreed = false) := by
  have hInv := reachable_inv hE hr
  have hok : b.move_history ≠ [] → ∃ b', undo_move E b = .ok b' ∧
      b'.position_history = b.position_history.dropLast ∧
      b'.move_history = b.move_history.dropLast ∧
      b'.halfmove_clock_history = b.halfmove_clock_history.dropLast ∧
      b'.ongoing = true ∧ b'.resigned_side = none ∧ b'.draw_agreed = false := by
    intro hne
    have hlp : b.position_history ≠ [] := by
      have := hInv.len_pos_move
      intro hc
      rw [hc] at this
      exact hne (List.eq_nil_of_length_eq_zero this.symm)
    have hlc : b.halfmove_clock_history ≠ [] := by
      have h1 := hInv.len_pos_move
      have h2 := hInv.len_pos_clock
      intro hc
      rw [hc] at h2
      simp at h2
      rw [h2] at h1
      exact hne (List.eq_nil_of_length_eq_zero h1.symm)
    obtain ⟨pos, hp⟩ := Option.isSome_iff_exists.mp (List.getLast?_isSome.mpr hlp)
    obtain ⟨clock, hc⟩ := Option.isSome_iff_exists.mp (List.getLast?_isSome.mpr hlc)
    refine ⟨{ b with
        fullmove_number :=
          b.fullmove_number - (if (E.side b.position).is_white then 1 else 0)
        move_history := b.move_history.dropLast
        position := pos
        position_history := b.position_history.dropLast
        halfmove_clock := clock
        halfmove_clock_history := b.halfmove_clock_history.dropLast
        ongoing := true
        resigned_side := none
        draw_agreed := false }, ?_, rfl, rfl, rfl, rfl, rfl, rfl⟩
    unfold undo_move
    rw [show b.move_history.isEmpty = false from List.isEmpty_eq_false.mpr hne, hp, hc]
    rfl
  refine ⟨⟨fun herr => ?_, fun hnil => ?_⟩, fun hnil => ?_, hok⟩
  · by_contra hne
    obtain ⟨b', hb', _⟩ := hok hne
    rw [hb'] at herr
    cases herr
  · unfold undo_move
    rw [show b.move_history.isEmpty = true from by simp [hnil]]
    rfl
  · unfold undo_move_mut
    rw [show undo_move E b = .error .no_moves_played from by
      unfold undo_move
      rw [show b.move_history.isEmpty = true from by simp [hnil]]
      rfl]

/-- C9 witness: a freshly constructed board has no moves to undo. -/
theorem c9_undo_contract_witness :
    undo_move toyE (from_fen toyE toyFen) = .error .no_moves_played :=
  (c9_undo_contract toyE_ok (.base toyFen)).1.mpr rfl

/-- If every remaining move is legal in its recorded pre-move position, the
movetext loop completes without hitting a panic. -/
theorem gen_movetext_go_isSome {E : Evaluator P M} (hE : EvalOk E) (b : Board P M) :
    ∀ (l : List M) (start : Nat) (cs : Color) (fm : Nat) (acc : String),
      (∀ (j : Nat) (mv : M), l[j]? = some mv →
        ∃ p, b.position_history[start + j]? = some p ∧
          mv ∈ E.gen_non_illegal_moves p) →
      (gen_movetext_go E b l start cs fm acc).isSome = true := by
  intro l
  induction l with
  | nil =>
    intro start cs fm acc _
    rfl
  | cons mv rest ih =>
    intro start cs fm acc hyp
    obtain ⟨p, hp, hmem⟩ := hyp 0 mv (by simp)
    rw [Nat.add_zero] at hp
    obtain ⟨san, hsan⟩ := Option.isSome_iff_exists.mp (hE.move_to_san_ok _ _ hmem)
    unfold gen_movetext_go
    simp only [hp, hsan]
    have hshift : ∀ (j : Nat) (mv' : M), rest[j]? = some mv' →
        ∃ p2, b.position_history[start + 1 + j]? = some p2 ∧
          mv' ∈ E.gen_non_illegal_moves p2 := by
      intro j mv' hj
      have := hyp (j + 1) mv' (by simpa using hj)
      rwa [show start + (j + 1) = start + 1 + j by omega] at this
    cases hcs : cs.is_black
    · rw [if_neg (by simp)]
      exact ih _ _ _ _ hshift
    · rw [if_pos rfl]
      exact ih _ _ _ _ hshift

/-- C10: on every reachable board each recorded move is legal in its
recorded pre-move position; consequently the SAN `.unwrap()` (and the
indexing) in `gen_movetext` and the `with_move_made().unwrap()` in
`make_move` never panic. -/
theorem c10_history_legal {E : Evaluator P M} (hE : EvalOk E) {b : Board P M}
    (hr : Reachable E b) :
    (∀ (i : Nat) (mv : M) (p : P), b.move_history[i]? = some mv →
      b.position_history[i]? = some p → mv ∈ E.gen_non_illegal_moves p) ∧
    (gen_movetext E b).isSome = true ∧
    (∀ m : M, make_move E b m ≠ .error .unwrap_failed) := by
  have hInv := reachable_inv hE hr
  have hkey : ∀ (i : Nat) (mv : M) (p : P), b.move_history[i]? = some mv →
      b.position_history[i]? = some p → mv ∈ E.gen_non_illegal_moves p := by
    intro i mv p hm hp
    have hi : i < b.move_history.length := by
      have := List.getElem?_eq_some.mp hm
      exact this.1
    have hic : i < b.halfmove_clock_history.length := by
      have h1 := hInv.len_pos_move
      have h2 := hInv.len_pos_clock
      omega
    have hc : b.halfmove_clock_history[i]? = some b.halfmove_clock_history[i] :=
      List.getElem?_eq_getElem hic
    exact (hInv.hist_ok i p _ mv hp hc hm).2
  refine ⟨hkey, ?_, ?_⟩
  · unfold gen_movetext
    apply gen_movetext_go_isSome hE
    intro j mv hj
    have hjlt : j < b.move_history.length := by
      have := List.getElem?_eq_some.mp hj
      exact this.1
    have hjp : j < b.position_history.length := by
      rw [hInv.len_pos_move]
      exact hjlt
    refine ⟨b.position_history[j], ?_, ?_⟩
    · rw [Nat.zero_add]
      exact List.getElem?_eq_getElem hjp
    · exact hkey j mv _ hj (List.getElem?_eq_getElem hjp)
  · intro m hbad
    unfold make_move at hbad
    cases hA : E.as_legal m (gen_legal_moves E b) with
    | none =>
      simp only [hA] at hbad
      cases hbad
    | some mv =>
      have hmem := hE.as_legal_mem _ _ _ hA
      cases hog : b.ongoing with
      | false =>
        rw [show gen_legal_moves E b = [] from by simp [gen_legal_moves, hog]] at hmem
        simp at hmem
      | true =>
        rw [gen_legal_moves_of_ongoing hog] at hmem
        obtain ⟨np, hnp⟩ := Option.isSome_iff_exists.mp (hE.with_move_made_ok _ _ hmem)
        simp only [hA, hnp] at hbad
        cases hbad

/-- C10 witness: the movetext of the two-move concrete game is produced
without panicking. -/
theorem c10_history_legal_witness : (gen_movetext toyE (toyIter 2)).isSome = true :=
  (c10_history_legal toyE_ok (toyIter_reachable 2)).2.1

end Rschess
